import Mathlib

/-!
Verification of the core of the rd-station-go client library: the
reflection-driven query encoder `StructToQueryString` (src/utils.go), the
request helper `Client.request` (URL construction and token injection), and
the per-resource wrapper functions (`ListContactsFilter`, `ListDealsFilter`,
`CreateDeal`, `UpdateDeal`, `CreateContact`, `UpdateContact`) with their
status classification and response decoding.

Go strings are modelled as byte sequences (`List Nat`, well-formed when every
entry is below 256), because Go's `url.QueryEscape`/`url.ParseQuery` operate
bytewise.  External effects (the JSON marshaller, request construction and
the HTTP transport) are supplied as explicit environment values.
-/

/-- A Go string as its byte sequence; bytes are naturals, well-formed when
below 256. -/
abbrev GoStr := List Nat

/-- Bytes of an ASCII string literal. -/
def strBytes (s : String) : GoStr := s.data.map Char.toNat

/-- Well-formedness: every byte fits in one octet. -/
def wfStr (s : GoStr) : Bool := s.all (fun b => b < 256)

/-- Decimal digits of a natural number, fuel-based so the recursion stays
structural; the fuel `n + 1` always suffices. -/
def natToDigitsAux : Nat → Nat → GoStr
  | 0, _ => []
  | fuel + 1, n => if n < 10 then [48 + n] else natToDigitsAux fuel (n / 10) ++ [48 + n % 10]

/-- Base-10 digits of a natural number. -/
def natToDigits (n : Nat) : GoStr := natToDigitsAux (n + 1) n

/-- strconv.FormatInt(v, 10): an optional minus sign followed by the decimal
digits of the absolute value. -/
def goFormatInt (n : Int) : GoStr :=
  if n < 0 then 45 :: natToDigits n.natAbs else natToDigits n.toNat

/-- The reflected value of one struct field, covering exactly the kinds the
switch in src/utils.go lines 27-44 handles: strings, signed integers of any
width (collapsed to their `field.Int()` value), booleans, slices (each
element already rendered to text the way `fmt.Sprintf("%v", ...)` does), and
`other` for every kind the switch ignores. -/
inductive FieldValue where
  | str (s : GoStr)
  | int (n : Int)
  | bool (b : Bool)
  | slice (elems : List GoStr)
  | other
deriving DecidableEq

/-- One struct field as reflection presents it: declared name, the value of
its `query` tag (empty when the tag is absent), and its value. -/
structure GoField where
  name : GoStr
  tag : GoStr
  value : FieldValue
deriving DecidableEq

/-- The dynamic argument of StructToQueryString: a struct with its fields in
declaration order, or any non-struct value. -/
inductive GoValue where
  | struct (fields : List GoField)
  | notStruct
deriving DecidableEq

/-- The only error StructToQueryString produces ("input is not a struct"). -/
inductive EncodeError where
  | invalidInput
deriving DecidableEq

/-- src/utils.go lines 22-25: the output parameter name is the `query` tag,
falling back to the declared field name when the tag is "" or "-". -/
def fieldKey (f : GoField) : GoStr :=
  if f.tag = [] ∨ f.tag = strBytes "-" then f.name else f.tag

/-- src/utils.go lines 27-44: the (key, value) pairs one field adds to
url.Values — non-empty strings, non-zero integers in base 10, true booleans
as "true", every slice element repeated under the same key, nothing for any
other kind. -/
def emitField (f : GoField) : List (GoStr × GoStr) :=
  match f.value with
  | .str s => if s = [] then [] else [(fieldKey f, s)]
  | .int n => if n = 0 then [] else [(fieldKey f, goFormatInt n)]
  | .bool b => if b then [(fieldKey f, strBytes "true")] else []
  | .slice elems => elems.map (fun e => (fieldKey f, e))
  | .other => []

/-- All pairs the loop adds to url.Values, in insertion order. -/
def emitPairs (fields : List GoField) : List (GoStr × GoStr) :=
  fields.flatMap emitField

/-- Byte-wise lexicographic string order — Go's string comparison, used by
sort.Strings inside url.Values.Encode. -/
def bytesLe : GoStr → GoStr → Bool
  | [], _ => true
  | _ :: _, [] => false
  | a :: as, b :: bs => if a < b then true else if b < a then false else bytesLe as bs

/-- Stable insertion of a pair into a key-sorted list: among equal keys the
inserted (originally earlier) pair stays first. -/
def insertPair (x : GoStr × GoStr) : List (GoStr × GoStr) → List (GoStr × GoStr)
  | [] => [x]
  | y :: ys => if bytesLe x.1 y.1 then x :: y :: ys else y :: insertPair x ys

/-- The pair order url.Values.Encode emits: keys sorted ascending, values of
one key in insertion order — i.e. a stable sort of the pairs by key. -/
def sortPairs : List (GoStr × GoStr) → List (GoStr × GoStr)
  | [] => []
  | x :: xs => insertPair x (sortPairs xs)

/-- The bytes url.QueryEscape keeps verbatim in a query component:
alphanumerics and '-', '_', '.', '~'. -/
def isUnreserved (b : Nat) : Bool :=
  (65 ≤ b && b ≤ 90) || (97 ≤ b && b ≤ 122) || (48 ≤ b && b ≤ 57) ||
    b == 45 || b == 95 || b == 46 || b == 126

/-- Upper-case hexadecimal digit byte, as url.QueryEscape emits. -/
def hexDigit (n : Nat) : Nat := if n < 10 then 48 + n else 55 + n

/-- url.QueryEscape on one byte: kept when unreserved, space to '+',
otherwise a %XX escape. -/
def escapeByte (b : Nat) : GoStr :=
  if isUnreserved b then [b]
  else if b = 32 then [43]
  else [37, hexDigit (b / 16), hexDigit (b % 16)]

/-- url.QueryEscape on a byte string. -/
def queryEscape (s : GoStr) : GoStr := s.flatMap escapeByte

/-- One escapedKey=escapedValue segment of url.Values.Encode's output. -/
def segOf (kv : GoStr × GoStr) : GoStr := queryEscape kv.1 ++ 61 :: queryEscape kv.2

/-- Join segments with '&' separators. -/
def joinAmp : List GoStr → GoStr
  | [] => []
  | [s] => s
  | s :: rest => s ++ 38 :: joinAmp rest

/-- url.Values.Encode: stable-sort the pairs by key, escape both components,
join with '=' and '&'. -/
def encodeValues (ps : List (GoStr × GoStr)) : GoStr :=
  joinAmp ((sortPairs ps).map segOf)

/-- src/utils.go StructToQueryString: error for a non-struct input, otherwise
the encoding of the emitted pairs; a struct input never fails. -/
def StructToQueryString : GoValue → Except EncodeError GoStr
  | .notStruct => .error .invalidInput
  | .struct fields => .ok (encodeValues (emitPairs fields))

/-- Value of a hexadecimal digit byte (either case), as url unescaping reads
a %XX escape. -/
def unhex (b : Nat) : Option Nat :=
  if 48 ≤ b && b ≤ 57 then some (b - 48)
  else if 65 ≤ b && b ≤ 70 then some (b - 55)
  else if 97 ≤ b && b ≤ 102 then some (b - 87)
  else none

/-- url.QueryUnescape in query mode: %XX becomes the byte, '+' becomes
space, every other byte is kept; fails on a malformed escape. -/
def queryUnescape : GoStr → Option GoStr
  | [] => some []
  | b :: rest =>
    if b = 37 then
      match rest with
      | h :: l :: rest2 =>
        match unhex h, unhex l with
        | some hv, some lv => Option.map (fun r => (16 * hv + lv) :: r) (queryUnescape rest2)
        | _, _ => none
      | _ => none
    else if b = 43 then Option.map (fun r => 32 :: r) (queryUnescape rest)
    else Option.map (fun r => b :: r) (queryUnescape rest)

/-- strings.Cut at the first occurrence of sep: (before, after), with after
empty when sep is absent — exactly how url.ParseQuery cuts key from value. -/
def cutByte (sep : Nat) : GoStr → GoStr × GoStr
  | [] => ([], [])
  | b :: rest =>
    if b = sep then ([], rest)
    else
      let r := cutByte sep rest
      (b :: r.1, r.2)

/-- Split at every occurrence of sep. -/
def splitOnByte (sep : Nat) : GoStr → List GoStr
  | [] => [[]]
  | b :: rest =>
    if b = sep then [] :: splitOnByte sep rest
    else
      match splitOnByte sep rest with
      | [] => [[b]]
      | x :: xs => (b :: x) :: xs

/-- url.ParseQuery on one segment: reject ';', cut at the first '=',
unescape key and value. -/
def parseSegment (seg : GoStr) : Option (GoStr × GoStr) :=
  if 59 ∈ seg then none
  else
    match queryUnescape (cutByte 61 seg).1, queryUnescape (cutByte 61 seg).2 with
    | some k, some v => some (k, v)
    | _, _ => none

/-- Parse a list of segments, failing when any segment does. -/
def parseSegments : List GoStr → Option (List (GoStr × GoStr))
  | [] => some []
  | seg :: rest =>
    match parseSegment seg, parseSegments rest with
    | some kv, some r => some (kv :: r)
    | _, _ => none

/-- url.ParseQuery, as the ordered pair list it accumulates: split on '&',
skip empty segments, parse each. -/
def parseQuery (s : GoStr) : Option (List (GoStr × GoStr)) :=
  parseSegments ((splitOnByte 38 s).filter (fun seg => seg ≠ []))

/-- The query component of a URL: everything after the first '?'. -/
def queryPart (url : GoStr) : GoStr := (cutByte 63 url).2

/-- How many parsed parameters carry the given name. -/
def countKey (k : GoStr) (ps : List (GoStr × GoStr)) : Nat :=
  ps.countP (fun kv => kv.1 = k)

/-- The raw, unclassified errors Client.request can return
(src/unnamed/part_002): json.Marshal failure, http.NewRequestWithContext
failure, or a transport failure from httpClient.Do. -/
inductive RawErr where
  | marshal
  | newRequest
  | transport
deriving DecidableEq

deriving instance DecidableEq for Except

/-- An HTTP response as the wrappers consume it: the status code and the
outcome of reading the body stream (by io.ReadAll or the JSON decoder). -/
structure HttpResponse where
  statusCode : Nat
  bodyRead : Except Unit GoStr
deriving DecidableEq

/-- The external effects of one Client.request invocation: the json.Marshal
outcome for the supplied body, whether http.NewRequestWithContext succeeds,
and httpClient.Do as a function of the full URL. -/
structure RequestEnv where
  marshal : Except Unit GoStr
  newRequest : Except Unit Unit
  perform : GoStr → Except Unit HttpResponse

/-- The client's immutable configuration: base URL and API token. -/
structure Client where
  baseUrl : GoStr
  token : GoStr

/-- src/unnamed/part_002: the full URL is baseUrl, '/', the endpoint, then
"token=" and the token appended after '&' when the joined string already
contains a '?' and after '?' otherwise. -/
def requestURL (c : Client) (endpoint : GoStr) : GoStr :=
  let url := c.baseUrl ++ 47 :: endpoint
  let sep : GoStr := if 63 ∈ url then [38] else [63]
  url ++ (sep ++ (strBytes "token=" ++ c.token))

/-- src/unnamed/part_002 Client.request: when a body is present its marshal
failure is returned as-is (raw); then the URL is built, the request created
and performed, each failure returned raw. -/
def Client.request (c : Client) (env : RequestEnv) (hasBody : Bool) (endpoint : GoStr) :
    Except RawErr HttpResponse :=
  match hasBody, env.marshal with
  | true, .error _ => .error .marshal
  | _, _ =>
    match env.newRequest with
    | .error _ => .error .newRequest
    | .ok _ =>
      match env.perform (requestURL c endpoint) with
      | .error _ => .error .transport
      | .ok resp => .ok resp

/-- The classified errors the wrapper functions return, mirroring the
sentinel error values of src/contacts.go lines 12-17 plus the plain
fmt.Errorf wrap of an encoder failure; requestFailed and apiReturnedError
keep the data they wrap via %w (the raw cause, the status and body). -/
inductive ClientError where
  | queryString (e : EncodeError)
  | requestFailed (cause : RawErr)
  | readResponseBody (status : Nat)
  | apiReturnedError (status : Nat) (body : GoStr)
  | decodeResponse
deriving DecidableEq

/-- Which sentinel error (errors.Is target) a classified error matches;
plain for the encoder wrap, which has no sentinel. -/
inductive ErrClass where
  | plain
  | requestFailed
  | readResponseBody
  | apiReturnedError
  | decodeResponse
deriving DecidableEq

/-- The sentinel class of each classified error. -/
def errClass : ClientError → ErrClass
  | .queryString _ => .plain
  | .requestFailed _ => .requestFailed
  | .readResponseBody _ => .readResponseBody
  | .apiReturnedError _ _ => .apiReturnedError
  | .decodeResponse => .decodeResponse

/-- The error class of a wrapper call's outcome; none on success. -/
def resultClass {α : Type} : Except ClientError α → Option ErrClass
  | .error e => some (errClass e)
  | .ok _ => none

/-- The response tail every wrapper repeats (e.g. src/contacts.go lines
115-132): a rejected status reads the whole body — ErrReadResponseBody when
the read fails, otherwise ErrApiReturnedError with the status and the raw
body — while an accepted status decodes the body stream as JSON into the
target, any read or parse failure becoming ErrDecodeResponse. -/
def handleResponse {α : Type} (isBad : Nat → Bool) (resp : HttpResponse)
    (dec : GoStr → Option α) : Except ClientError α :=
  if isBad resp.statusCode then
    match resp.bodyRead with
    | .error _ => .error (.readResponseBody resp.statusCode)
    | .ok bodyBytes => .error (.apiReturnedError resp.statusCode bodyBytes)
  else
    match resp.bodyRead with
    | .error _ => .error .decodeResponse
    | .ok bodyBytes =>
      match dec bodyBytes with
      | none => .error .decodeResponse
      | some v => .ok v

/-- src/contacts.go ListContactsFilterRequest: nine string fields. -/
structure ListContactsFilterRequest where
  Token : GoStr
  Page : GoStr
  Limit : GoStr
  Order : GoStr
  Direction : GoStr
  Email : GoStr
  Q : GoStr
  Phone : GoStr
  Title : GoStr

/-- The reflected field list of ListContactsFilterRequest, in declaration
order, with the query tags of the source. -/
def ListContactsFilterRequest.toFields (r : ListContactsFilterRequest) : List GoField :=
  [⟨strBytes "Token", strBytes "token", .str r.Token⟩,
   ⟨strBytes "Page", strBytes "page", .str r.Page⟩,
   ⟨strBytes "Limit", strBytes "limit", .str r.Limit⟩,
   ⟨strBytes "Order", strBytes "order", .str r.Order⟩,
   ⟨strBytes "Direction", strBytes "direction", .str r.Direction⟩,
   ⟨strBytes "Email", strBytes "email", .str r.Email⟩,
   ⟨strBytes "Q", strBytes "q", .str r.Q⟩,
   ⟨strBytes "Phone", strBytes "phone", .str r.Phone⟩,
   ⟨strBytes "Title", strBytes "title", .str r.Title⟩]

/-- src/unnamed/part_000 ListDealsFilterRequest: twenty-three string
fields. -/
structure ListDealsFilterRequest where
  Token : GoStr
  Page : GoStr
  Limit : GoStr
  Order : GoStr
  Direction : GoStr
  Name : GoStr
  ExactName : GoStr
  Win : GoStr
  UserID : GoStr
  ClosedAt : GoStr
  ClosedAtPeriod : GoStr
  CreatedAtPeriod : GoStr
  PredictionDatePeriod : GoStr
  StartDate : GoStr
  EndDate : GoStr
  CampaignID : GoStr
  DealStageID : GoStr
  DealLostReasonID : GoStr
  DealPipelineID : GoStr
  Organization : GoStr
  Hold : GoStr
  ProductPresence : GoStr
  NextPage : GoStr

/-- The reflected field list of ListDealsFilterRequest, in declaration
order, with the query tags of the source. -/
def ListDealsFilterRequest.toFields (r : ListDealsFilterRequest) : List GoField :=
  [⟨strBytes "Token", strBytes "token", .str r.Token⟩,
   ⟨strBytes "Page", strBytes "page", .str r.Page⟩,
   ⟨strBytes "Limit", strBytes "limit", .str r.Limit⟩,
   ⟨strBytes "Order", strBytes "order", .str r.Order⟩,
   ⟨strBytes "Direction", strBytes "direction", .str r.Direction⟩,
   ⟨strBytes "Name", strBytes "name", .str r.Name⟩,
   ⟨strBytes "ExactName", strBytes "exact_name", .str r.ExactName⟩,
   ⟨strBytes "Win", strBytes "win", .str r.Win⟩,
   ⟨strBytes "UserID", strBytes "user_id", .str r.UserID⟩,
   ⟨strBytes "ClosedAt", strBytes "closed_at", .str r.ClosedAt⟩,
   ⟨strBytes "ClosedAtPeriod", strBytes "closed_at_period", .str r.ClosedAtPeriod⟩,
   ⟨strBytes "CreatedAtPeriod", strBytes "created_at_period", .str r.CreatedAtPeriod⟩,
   ⟨strBytes "PredictionDatePeriod", strBytes "prediction_date_period", .str r.PredictionDatePeriod⟩,
   ⟨strBytes "StartDate", strBytes "start_date", .str r.StartDate⟩,
   ⟨strBytes "EndDate", strBytes "end_date", .str r.EndDate⟩,
   ⟨strBytes "CampaignID", strBytes "campaign_id", .str r.CampaignID⟩,
   ⟨strBytes "DealStageID", strBytes "deal_stage_id", .str r.DealStageID⟩,
   ⟨strBytes "DealLostReasonID", strBytes "deal_lost_reason_id", .str r.DealLostReasonID⟩,
   ⟨strBytes "DealPipelineID", strBytes "deal_pipeline_id", .str r.DealPipelineID⟩,
   ⟨strBytes "Organization", strBytes "organization", .str r.Organization⟩,
   ⟨strBytes "Hold", strBytes "hold", .str r.Hold⟩,
   ⟨strBytes "ProductPresence", strBytes "product_presence", .str r.ProductPresence⟩,
   ⟨strBytes "NextPage", strBytes "next_page", .str r.NextPage⟩]

/-- Modelled from the spec: the contacts listing endpoint constant
(listContactsEndpoint is declared in a repository file not under src/); the
spec describes endpoints as fixed REST resource paths with no query
string. -/
def listContactsEndpoint : GoStr := strBytes "contacts"

/-- Modelled from the spec: the deals listing endpoint constant
(listDealsEndpoint is declared outside src/); a fixed resource path with no
query string. -/
def listDealsEndpoint : GoStr := strBytes "deals"

/-- Modelled from the spec: the deal creation endpoint constant. -/
def createDealEndpoint : GoStr := strBytes "deals"

/-- Modelled from the spec: the contact creation endpoint constant. -/
def createContactEndpoint : GoStr := strBytes "contacts"

/-- Modelled from the spec: the deal update path produced by fmt.Sprintf
over updateDealByIDEndpoint for a given ID. -/
def updateDealPath (dealID : GoStr) : GoStr := strBytes "deals/" ++ dealID

/-- Modelled from the spec: the contact update path for a given ID. -/
def updateContactPath (contactID : GoStr) : GoStr := strBytes "contacts/" ++ contactID

/-- The full path ListContactsFilter passes to Client.request: the endpoint,
and the encoded filter after '?' when it is non-empty. -/
def listContactsFullPath (filter : ListContactsFilterRequest) : GoStr :=
  match StructToQueryString (.struct filter.toFields) with
  | .error _ => listContactsEndpoint
  | .ok qs => if qs ≠ [] then listContactsEndpoint ++ 63 :: qs else listContactsEndpoint

/-- The full URL ListContactsFilter's transport call receives. -/
def ListContactsFilterURL (c : Client) (filter : ListContactsFilterRequest) : GoStr :=
  requestURL c (listContactsFullPath filter)

/-- src/contacts.go ListContactsFilter: encode the filter, GET with no body,
accept only status 200. -/
def ListContactsFilter {α : Type} (c : Client) (env : RequestEnv)
    (filter : ListContactsFilterRequest) (dec : GoStr → Option α) :
    Except ClientError α :=
  match StructToQueryString (.struct filter.toFields) with
  | .error e => .error (.queryString e)
  | .ok _ =>
    match c.request env false (listContactsFullPath filter) with
    | .error e => .error (.requestFailed e)
    | .ok resp => handleResponse (fun s => s ≠ 200) resp dec

/-- The full path ListDealsFilter passes to Client.request. -/
def listDealsFullPath (filter : ListDealsFilterRequest) : GoStr :=
  match StructToQueryString (.struct filter.toFields) with
  | .error _ => listDealsEndpoint
  | .ok qs => if qs ≠ [] then listDealsEndpoint ++ 63 :: qs else listDealsEndpoint

/-- The full URL ListDealsFilter's transport call receives. -/
def ListDealsFilterURL (c : Client) (filter : ListDealsFilterRequest) : GoStr :=
  requestURL c (listDealsFullPath filter)

/-- src/unnamed/part_000 ListDealsFilter: encode the filter, GET with no
body, accept only status 200. -/
def ListDealsFilter {α : Type} (c : Client) (env : RequestEnv)
    (filter : ListDealsFilterRequest) (dec : GoStr → Option α) :
    Except ClientError α :=
  match StructToQueryString (.struct filter.toFields) with
  | .error e => .error (.queryString e)
  | .ok _ =>
    match c.request env false (listDealsFullPath filter) with
    | .error e => .error (.requestFailed e)
    | .ok resp => handleResponse (fun s => s ≠ 200) resp dec

/-- src/unnamed/part_000 CreateDeal: POST with a body (env.marshal supplies
its marshal outcome), accepting statuses 200 and 201. -/
def CreateDeal {α : Type} (c : Client) (env : RequestEnv) (dec : GoStr → Option α) :
    Except ClientError α :=
  match c.request env true createDealEndpoint with
  | .error e => .error (.requestFailed e)
  | .ok resp => handleResponse (fun s => s ≠ 200 ∧ s ≠ 201) resp dec

/-- src/unnamed/part_000 UpdateDeal: PUT with a body to the per-ID path,
accepting only status 200. -/
def UpdateDeal {α : Type} (c : Client) (env : RequestEnv) (dealID : GoStr)
    (dec : GoStr → Option α) : Except ClientError α :=
  match c.request env true (updateDealPath dealID) with
  | .error e => .error (.requestFailed e)
  | .ok resp => handleResponse (fun s => s ≠ 200) resp dec

/-- src/contacts.go CreateContact: POST with a body, accepting statuses 200
and 201. -/
def CreateContact {α : Type} (c : Client) (env : RequestEnv) (dec : GoStr → Option α) :
    Except ClientError α :=
  match c.request env true createContactEndpoint with
  | .error e => .error (.requestFailed e)
  | .ok resp => handleResponse (fun s => s ≠ 200 ∧ s ≠ 201) resp dec

/-- src/contacts.go UpdateContact: PUT with a body to the per-ID path,
accepting only status 200. -/
def UpdateContact {α : Type} (c : Client) (env : RequestEnv) (contactID : GoStr)
    (dec : GoStr → Option α) : Except ClientError α :=
  match c.request env true (updateContactPath contactID) with
  | .error e => .error (.requestFailed e)
  | .ok resp => handleResponse (fun s => s ≠ 200) resp dec

/-- Well-formedness of a field value: every byte string in it is a byte
string. -/
def wfValue : FieldValue → Bool
  | .str s => wfStr s
  | .slice elems => elems.all wfStr
  | _ => true

/-- Well-formedness of a reflected field. -/
def wfField (f : GoField) : Bool := wfStr f.name && wfStr f.tag && wfValue f.value

/-- Well-formedness of a reflected field list. -/
def wfFields (fields : List GoField) : Bool := fields.all wfField

/-- Well-formedness of a pair list. -/
def wfPairs (ps : List (GoStr × GoStr)) : Prop :=
  ∀ kv ∈ ps, wfStr kv.1 = true ∧ wfStr kv.2 = true

/-- A field value at its zero value, as the spec lists them: empty string,
zero integer, false boolean, empty slice; a kind the encoder ignores is
vacuously zero. -/
def zeroValued : FieldValue → Bool
  | .str s => s = []
  | .int n => n = 0
  | .bool b => b = false
  | .slice elems => elems = []
  | .other => true

/-- A field value that contributes at least one parameter to the output. -/
def contributes : FieldValue → Bool
  | .str s => s ≠ []
  | .int n => n ≠ 0
  | .bool b => b
  | .slice elems => elems ≠ []
  | .other => false

/-- Read a digit byte string back as the base-10 number it denotes. -/
def digitsToNat (s : GoStr) : Nat := s.foldl (fun acc d => 10 * acc + (d - 48)) 0

theorem isUnreserved_facts (b : Nat) (h : isUnreserved b = true) :
    b ≠ 37 ∧ b ≠ 43 ∧ b ≠ 38 ∧ b ≠ 59 ∧ b ≠ 61 ∧ b ≠ 63 := by
  refine ⟨?_, ?_, ?_, ?_, ?_, ?_⟩ <;> rintro rfl <;> exact absurd h (by decide)

theorem hexDigit_facts (n : Nat) :
    hexDigit n ≠ 37 ∧ hexDigit n ≠ 38 ∧ hexDigit n ≠ 43 ∧ hexDigit n ≠ 59 ∧
      hexDigit n ≠ 61 ∧ hexDigit n ≠ 63 := by
  refine ⟨?_, ?_, ?_, ?_, ?_, ?_⟩ <;> simp only [hexDigit] <;> split <;> omega

theorem escapeByte_mem (b c : Nat) (hc : c ∈ escapeByte b) :
    c ≠ 38 ∧ c ≠ 59 ∧ c ≠ 61 ∧ c ≠ 63 := by
  unfold escapeByte at hc
  split at hc
  · next h =>
    simp only [List.mem_singleton] at hc
    subst hc
    have := isUnreserved_facts c h
    tauto
  · split at hc
    · simp only [List.mem_singleton] at hc
      subst hc
      refine ⟨?_, ?_, ?_, ?_⟩ <;> decide
    · simp only [List.mem_cons, List.not_mem_nil, or_false] at hc
      rcases hc with hc | hc | hc
      · subst hc
        refine ⟨?_, ?_, ?_, ?_⟩ <;> decide
      · subst hc
        have := hexDigit_facts (b / 16)
        tauto
      · subst hc
        have := hexDigit_facts (b % 16)
        tauto

theorem queryEscape_mem (s : GoStr) (c : Nat) (hc : c ∈ queryEscape s) :
    c ≠ 38 ∧ c ≠ 59 ∧ c ≠ 61 ∧ c ≠ 63 := by
  simp only [queryEscape, List.mem_flatMap] at hc
  obtain ⟨b, _, hb⟩ := hc
  exact escapeByte_mem b c hb

theorem unhex_hexDigit : ∀ n, n < 16 → unhex (hexDigit n) = some n := by decide

theorem queryUnescape_cons_ne (b : Nat) (rest : GoStr) (h37 : b ≠ 37) (h43 : b ≠ 43) :
    queryUnescape (b :: rest) = Option.map (fun r => b :: r) (queryUnescape rest) := by
  conv_lhs => rw [queryUnescape.eq_def]
  simp [h37, h43]

theorem queryUnescape_cons_plus (rest : GoStr) :
    queryUnescape (43 :: rest) = Option.map (fun r => 32 :: r) (queryUnescape rest) := by
  conv_lhs => rw [queryUnescape.eq_def]
  simp

theorem queryUnescape_cons_pct (hv lv : Nat) (h l : Nat) (rest : GoStr)
    (hh : unhex h = some hv) (hl : unhex l = some lv) :
    queryUnescape (37 :: h :: l :: rest) =
      Option.map (fun r => (16 * hv + lv) :: r) (queryUnescape rest) := by
  conv_lhs => rw [queryUnescape.eq_def]
  simp [hh, hl]

theorem queryUnescape_escapeByte (b : Nat) (hb : b < 256) (rest : GoStr) :
    queryUnescape (escapeByte b ++ rest) =
      Option.map (fun r => b :: r) (queryUnescape rest) := by
  unfold escapeByte
  by_cases h1 : isUnreserved b
  · obtain ⟨h37, h43, _⟩ := isUnreserved_facts b h1
    simpa [h1] using queryUnescape_cons_ne b rest h37 h43
  · by_cases h2 : b = 32
    · subst h2
      simpa [h1] using queryUnescape_cons_plus rest
    · have hhi : unhex (hexDigit (b / 16)) = some (b / 16) :=
        unhex_hexDigit (b / 16) (by omega)
      have hlo : unhex (hexDigit (b % 16)) = some (b % 16) :=
        unhex_hexDigit (b % 16) (by omega)
      have hval : 16 * (b / 16) + b % 16 = b := by omega
      rw [if_neg h1, if_neg h2]
      have hshape : ([37, hexDigit (b / 16), hexDigit (b % 16)] : GoStr) ++ rest =
          37 :: hexDigit (b / 16) :: hexDigit (b % 16) :: rest := rfl
      rw [hshape, queryUnescape_cons_pct (b / 16) (b % 16) _ _ rest hhi hlo, hval]

theorem wfStr_cons (b : Nat) (bs : GoStr) (h : wfStr (b :: bs) = true) :
    b < 256 ∧ wfStr bs = true := by
  simp only [wfStr, List.all_cons, Bool.and_eq_true, decide_eq_true_eq] at h ⊢
  exact h

theorem queryUnescape_queryEscape_append (s : GoStr) (hs : wfStr s = true) (rest : GoStr) :
    queryUnescape (queryEscape s ++ rest) =
      Option.map (fun r => s ++ r) (queryUnescape rest) := by
  induction s with
  | nil =>
    simp only [queryEscape, List.flatMap_nil, List.nil_append]
    cases queryUnescape rest <;> simp
  | cons b bs ih =>
    obtain ⟨hb, hbs⟩ := wfStr_cons b bs hs
    have hq : queryEscape (b :: bs) = escapeByte b ++ queryEscape bs := by
      simp [queryEscape]
    rw [hq, List.append_assoc, queryUnescape_escapeByte b hb _, ih hbs]
    cases queryUnescape rest <;> simp

theorem queryUnescape_queryEscape (s : GoStr) (hs : wfStr s = true) :
    queryUnescape (queryEscape s) = some s := by
  have h := queryUnescape_queryEscape_append s hs []
  rw [List.append_nil] at h
  rw [h]
  simp [queryUnescape]

theorem queryUnescape_unreserved (s : GoStr) (hs : s.all isUnreserved = true) :
    queryUnescape s = some s := by
  induction s with
  | nil => simp [queryUnescape]
  | cons b bs ih =>
    simp only [List.all_cons, Bool.and_eq_true] at hs
    obtain ⟨h37, h43, _⟩ := isUnreserved_facts b hs.1
    rw [queryUnescape_cons_ne b bs h37 h43, ih hs.2]
    rfl

theorem cutByte_append (sep : Nat) (a b : GoStr) (ha : sep ∉ a) :
    cutByte sep (a ++ sep :: b) = (a, b) := by
  induction a with
  | nil => simp [cutByte]
  | cons x xs ih =>
    simp only [List.mem_cons, not_or] at ha
    have hx : x ≠ sep := fun hxe => ha.1 hxe.symm
    simp [cutByte, hx, ih ha.2]

theorem splitOnByte_cons_sep (sep : Nat) (s : GoStr) :
    splitOnByte sep (sep :: s) = [] :: splitOnByte sep s := by
  conv_lhs => rw [splitOnByte.eq_def]
  simp

theorem splitOnByte_append (sep : Nat) (a s : GoStr) (ha : sep ∉ a)
    (y : GoStr) (ys : List GoStr) (hs : splitOnByte sep s = y :: ys) :
    splitOnByte sep (a ++ s) = (a ++ y) :: ys := by
  induction a with
  | nil => simpa using hs
  | cons x xs ih =>
    simp only [List.mem_cons, not_or] at ha
    have hx : x ≠ sep := fun hxe => ha.1 hxe.symm
    have hxs := ih ha.2
    conv_lhs => rw [List.cons_append, splitOnByte.eq_def]
    simp [hx, hxs]

theorem splitOnByte_nil (sep : Nat) : splitOnByte sep [] = [[]] := rfl

theorem joinAmp_cons₂ (p q : GoStr) (rest : List GoStr) :
    joinAmp (p :: q :: rest) = p ++ 38 :: joinAmp (q :: rest) := rfl

theorem splitOnByte_joinAmp (parts : List GoStr) (h : ∀ p ∈ parts, (38 : Nat) ∉ p)
    (hne : parts ≠ []) : splitOnByte 38 (joinAmp parts) = parts := by
  induction parts with
  | nil => exact absurd rfl hne
  | cons p rest ih =>
    cases rest with
    | nil =>
      have hp : (38 : Nat) ∉ p := h p (List.mem_cons_self p [])
      have : joinAmp [p] = p ++ [] := by simp [joinAmp]
      rw [this, splitOnByte_append 38 p [] hp [] [] (splitOnByte_nil 38)]
      simp
    | cons q rest2 =>
      have hp : (38 : Nat) ∉ p := h p (List.mem_cons_self p _)
      have hrest : ∀ x ∈ q :: rest2, (38 : Nat) ∉ x := by
        intro x hx
        exact h x (List.mem_cons_of_mem p hx)
      have hr := ih hrest (by simp)
      have hsplit2 : splitOnByte 38 (38 :: joinAmp (q :: rest2)) = [] :: q :: rest2 := by
        rw [splitOnByte_cons_sep, hr]
      rw [joinAmp_cons₂, splitOnByte_append 38 p _ hp [] (q :: rest2) hsplit2]
      simp

theorem segOf_ne_nil (kv : GoStr × GoStr) : segOf kv ≠ [] := by
  unfold segOf
  intro h
  have : (61 : Nat) ∈ queryEscape kv.1 ++ 61 :: queryEscape kv.2 := by
    simp
  rw [h] at this
  exact List.not_mem_nil 61 this

theorem segOf_not_amp (kv : GoStr × GoStr) : (38 : Nat) ∉ segOf kv := by
  unfold segOf
  intro h
  rcases List.mem_append.mp h with h1 | h1
  · exact (queryEscape_mem kv.1 38 h1).1 rfl
  · rcases List.mem_cons.mp h1 with h2 | h2
    · omega
    · exact (queryEscape_mem kv.2 38 h2).1 rfl

theorem segOf_not_semi (kv : GoStr × GoStr) : (59 : Nat) ∉ segOf kv := by
  unfold segOf
  intro h
  rcases List.mem_append.mp h with h1 | h1
  · exact (queryEscape_mem kv.1 59 h1).2.1 rfl
  · rcases List.mem_cons.mp h1 with h2 | h2
    · omega
    · exact (queryEscape_mem kv.2 59 h2).2.1 rfl

theorem parseSegment_segOf (k v : GoStr) (hk : wfStr k = true) (hv : wfStr v = true) :
    parseSegment (segOf (k, v)) = some (k, v) := by
  have h61 : (61 : Nat) ∉ queryEscape k := fun h => (queryEscape_mem k 61 h).2.2.1 rfl
  have hcut : cutByte 61 (segOf (k, v)) = (queryEscape k, queryEscape v) :=
    cutByte_append 61 _ _ h61
  unfold parseSegment
  rw [if_neg (segOf_not_semi (k, v)), hcut]
  simp only
  rw [queryUnescape_queryEscape k hk, queryUnescape_queryEscape v hv]

theorem parseSegments_map (ps : List (GoStr × GoStr)) (hwf : wfPairs ps) :
    parseSegments (ps.map segOf) = some ps := by
  induction ps with
  | nil => rfl
  | cons kv rest ih =>
    have hkv := hwf kv (List.mem_cons_self kv rest)
    have hrest : wfPairs rest := fun x hx => hwf x (List.mem_cons_of_mem kv hx)
    have hseg : parseSegment (segOf kv) = some kv := by
      obtain ⟨k, v⟩ := kv
      exact parseSegment_segOf k v hkv.1 hkv.2
    simp [parseSegments, hseg, ih hrest]

theorem parseQuery_joinSegs (ps : List (GoStr × GoStr)) (hwf : wfPairs ps) :
    parseQuery (joinAmp (ps.map segOf)) = some ps := by
  cases ps with
  | nil => rfl
  | cons kv rest =>
    have hsplit : splitOnByte 38 (joinAmp ((kv :: rest).map segOf)) = (kv :: rest).map segOf :=
      splitOnByte_joinAmp _ (by
        intro p hp
        rcases List.mem_map.mp hp with ⟨x, _, rfl⟩
        exact segOf_not_amp x) (by simp)
    unfold parseQuery
    rw [hsplit, List.filter_eq_self.mpr ?_]
    · exact parseSegments_map _ hwf
    · intro a ha
      rcases List.mem_map.mp ha with ⟨x, _, rfl⟩
      simpa using segOf_ne_nil x

theorem insertPair_perm (x : GoStr × GoStr) (l : List (GoStr × GoStr)) :
    (insertPair x l).Perm (x :: l) := by
  induction l with
  | nil => exact List.Perm.refl _
  | cons y ys ih =>
    unfold insertPair
    split
    · exact List.Perm.refl _
    · exact (ih.cons y).trans (List.Perm.swap x y ys)

theorem sortPairs_perm (l : List (GoStr × GoStr)) : (sortPairs l).Perm l := by
  induction l with
  | nil => exact List.Perm.refl _
  | cons x xs ih =>
    exact (insertPair_perm x (sortPairs xs)).trans (ih.cons x)

theorem wfPairs_of_perm (ps qs : List (GoStr × GoStr)) (h : ps.Perm qs)
    (hwf : wfPairs qs) : wfPairs ps := by
  intro kv hkv
  exact hwf kv (h.mem_iff.mp hkv)

theorem parseQuery_encodeValues (ps : List (GoStr × GoStr)) (hwf : wfPairs ps) :
    parseQuery (encodeValues ps) = some (sortPairs ps) := by
  unfold encodeValues
  exact parseQuery_joinSegs (sortPairs ps)
    (wfPairs_of_perm _ _ (sortPairs_perm ps) hwf)

theorem wfStr_natToDigitsAux (fuel : Nat) : ∀ n, wfStr (natToDigitsAux fuel n) = true := by
  induction fuel with
  | zero => intro n; rfl
  | succ fuel ih =>
    intro n
    unfold natToDigitsAux
    split
    · next hlt =>
      simp only [wfStr, List.all_cons, List.all_nil, Bool.and_true, decide_eq_true_eq]
      omega
    · simp only [wfStr, List.all_append, Bool.and_eq_true]
      refine ⟨ih (n / 10), ?_⟩
      simp only [List.all_cons, List.all_nil, Bool.and_true, decide_eq_true_eq]
      omega

theorem wfStr_goFormatInt (n : Int) : wfStr (goFormatInt n) = true := by
  unfold goFormatInt
  split
  · simp only [natToDigits, wfStr, List.all_cons, Bool.and_eq_true, decide_eq_true_eq]
    exact ⟨by omega, wfStr_natToDigitsAux _ _⟩
  · exact wfStr_natToDigitsAux _ _

theorem wfPairs_emitField (f : GoField) (h : wfField f = true) : wfPairs (emitField f) := by
  obtain ⟨nm, tg, v⟩ := f
  simp only [wfField, Bool.and_eq_true] at h
  obtain ⟨⟨hname, htag⟩, hval⟩ := h
  have hkey : wfStr (fieldKey ⟨nm, tg, v⟩) = true := by
    unfold fieldKey
    split
    · exact hname
    · exact htag
  intro kv hkv
  cases v with
  | str s =>
    simp only [emitField] at hkv
    split at hkv
    · exact absurd hkv (List.not_mem_nil kv)
    · simp only [List.mem_singleton] at hkv
      subst hkv
      exact ⟨hkey, by simpa [wfValue] using hval⟩
  | int n =>
    simp only [emitField] at hkv
    split at hkv
    · exact absurd hkv (List.not_mem_nil kv)
    · simp only [List.mem_singleton] at hkv
      subst hkv
      exact ⟨hkey, wfStr_goFormatInt n⟩
  | bool b =>
    simp only [emitField] at hkv
    split at hkv
    · simp only [List.mem_singleton] at hkv
      subst hkv
      exact ⟨hkey, show wfStr (strBytes "true") = true by decide⟩
    · exact absurd hkv (List.not_mem_nil kv)
  | slice elems =>
    simp only [emitField, List.mem_map] at hkv
    obtain ⟨e, he, rfl⟩ := hkv
    refine ⟨hkey, ?_⟩
    simp only [wfValue, List.all_eq_true] at hval
    exact hval e he
  | other =>
    exact absurd hkv (List.not_mem_nil kv)

theorem wfPairs_emitPairs (fields : List GoField) (h : wfFields fields = true) :
    wfPairs (emitPairs fields) := by
  intro kv hkv
  simp only [emitPairs, List.mem_flatMap] at hkv
  obtain ⟨f, hf, hkvf⟩ := hkv
  simp only [wfFields, List.all_eq_true] at h
  exact wfPairs_emitField f (h f hf) kv hkvf

theorem parseQuery_struct (fields : List GoField) (h : wfFields fields = true) :
    parseQuery (encodeValues (emitPairs fields)) = some (sortPairs (emitPairs fields)) :=
  parseQuery_encodeValues (emitPairs fields) (wfPairs_emitPairs fields h)

theorem emitField_key (f : GoField) : ∀ kv ∈ emitField f, kv.1 = fieldKey f := by
  intro kv hkv
  obtain ⟨nm, tg, v⟩ := f
  cases v with
  | str s =>
    simp only [emitField] at hkv
    split at hkv
    · exact absurd hkv (List.not_mem_nil kv)
    · simp only [List.mem_singleton] at hkv
      subst hkv
      rfl
  | int n =>
    simp only [emitField] at hkv
    split at hkv
    · exact absurd hkv (List.not_mem_nil kv)
    · simp only [List.mem_singleton] at hkv
      subst hkv
      rfl
  | bool b =>
    simp only [emitField] at hkv
    split at hkv
    · simp only [List.mem_singleton] at hkv
      subst hkv
      rfl
    · exact absurd hkv (List.not_mem_nil kv)
  | slice elems =>
    simp only [emitField, List.mem_map] at hkv
    obtain ⟨e, _, rfl⟩ := hkv
    rfl
  | other => exact absurd hkv (List.not_mem_nil kv)

theorem emitField_zero (f : GoField) (h : zeroValued f.value = true) : emitField f = [] := by
  obtain ⟨nm, tg, v⟩ := f
  cases v with
  | str s =>
    simp only [zeroValued, decide_eq_true_eq] at h
    simp [emitField, h]
  | int n =>
    simp only [zeroValued, decide_eq_true_eq] at h
    simp [emitField, h]
  | bool b =>
    simp only [zeroValued, decide_eq_true_eq] at h
    simp [emitField, h]
  | slice elems =>
    simp only [zeroValued, decide_eq_true_eq] at h
    simp [emitField, h]
  | other => rfl

theorem digitsToNat_append_digit (l : GoStr) (d : Nat) :
    digitsToNat (l ++ [d]) = 10 * digitsToNat l + (d - 48) := by
  simp [digitsToNat, List.foldl_append]

theorem digitsToNat_aux : ∀ fuel n, n < fuel → digitsToNat (natToDigitsAux fuel n) = n := by
  intro fuel
  induction fuel with
  | zero => intro n h; omega
  | succ fuel ih =>
    intro n h
    unfold natToDigitsAux
    split
    · next h10 =>
      simp [digitsToNat]
    · next h10 =>
      have hh : n / 10 < fuel := by omega
      rw [digitsToNat_append_digit, ih _ hh]
      omega

theorem digitsToNat_natToDigits (n : Nat) : digitsToNat (natToDigits n) = n :=
  digitsToNat_aux (n + 1) n (Nat.lt_succ_self n)

/-- C5: the output parameter name is the field's `query` tag whenever that
tag is present and neither empty nor the ignore marker "-"; otherwise it is
the declared field name; every pair a field emits carries that key, so a
field whose tag is non-empty, non-ignore and different from its name never
appears under the declared name. -/
theorem claim5_tag_override (f : GoField) :
    ((f.tag ≠ [] ∧ f.tag ≠ strBytes "-") → fieldKey f = f.tag) ∧
    ((f.tag = [] ∨ f.tag = strBytes "-") → fieldKey f = f.name) ∧
    (∀ kv ∈ emitField f, kv.1 = fieldKey f) ∧
    ((f.tag ≠ [] ∧ f.tag ≠ strBytes "-" ∧ f.tag ≠ f.name) →
      ∀ kv ∈ emitField f, kv.1 ≠ f.name) := by
  refine ⟨?_, ?_, emitField_key f, ?_⟩
  · intro h
    unfold fieldKey
    rw [if_neg]
    rintro (h1 | h2)
    · exact h.1 h1
    · exact h.2 h2
  · intro h
    unfold fieldKey
    rw [if_pos h]
  · intro h kv hkv
    rw [emitField_key f kv hkv]
    have hk : fieldKey f = f.tag := by
      unfold fieldKey
      rw [if_neg]
      rintro (h1 | h2)
      · exact h.1 h1
      · exact h.2.1 h2
    rw [hk]
    exact h.2.2

/-- C5 witness: a field named "Declared" tagged "custom" gets key "custom",
and its emitted pair does not carry the declared name. -/
theorem claim5_witness :
    fieldKey ⟨strBytes "Declared", strBytes "custom", .str (strBytes "v")⟩ =
      strBytes "custom" ∧
    ((strBytes "custom", strBytes "v") : GoStr × GoStr).1 ≠ strBytes "Declared" := by
  have h := claim5_tag_override ⟨strBytes "Declared", strBytes "custom", .str (strBytes "v")⟩
  refine ⟨h.1 ⟨by decide, by decide⟩, ?_⟩
  exact h.2.2.2 ⟨by decide, by decide, by decide⟩ (strBytes "custom", strBytes "v") (by decide)

/-- C6: a struct whose fields are all at their zero value encodes to the
empty string with no error, and in general a field contributes parameters
exactly when it is a non-empty string, a non-zero integer, a true boolean
(emitted as the literal "true"), or a non-empty slice. -/
theorem claim6_zero_struct :
    (∀ fields : List GoField, (∀ f ∈ fields, zeroValued f.value = true) →
        StructToQueryString (.struct fields) = .ok []) ∧
    (∀ f : GoField, emitField f ≠ [] ↔ contributes f.value = true) ∧
    (∀ f : GoField, f.value = .bool true → emitField f = [(fieldKey f, strBytes "true")]) := by
  refine ⟨?_, ?_, ?_⟩
  · intro fields h
    have hemit : emitPairs fields = [] := by
      induction fields with
      | nil => rfl
      | cons f rest ih =>
        have h1 : emitField f = [] := emitField_zero f (h f (List.mem_cons_self f rest))
        have h2 : emitPairs rest = [] := ih fun x hx => h x (List.mem_cons_of_mem f hx)
        simp [emitPairs, List.flatMap_cons, h1]
        simpa [emitPairs] using h2
    simp [StructToQueryString, hemit]
    rfl
  · intro f
    obtain ⟨nm, tg, v⟩ := f
    cases v with
    | str s =>
      by_cases h : s = [] <;> simp [emitField, contributes, h]
    | int n =>
      by_cases h : n = 0 <;> simp [emitField, contributes, h]
    | bool b =>
      cases b <;> simp [emitField, contributes]
    | slice elems =>
      cases elems <;> simp [emitField, contributes]
    | other => simp [emitField, contributes]
  · intro f h
    obtain ⟨nm, tg, v⟩ := f
    cases v with
    | bool b =>
      cases h
      rfl
    | str s => exact absurd h (by simp)
    | int n => exact absurd h (by simp)
    | slice elems => exact absurd h (by simp)
    | other => exact absurd h (by simp)

/-- C6 witness: a four-field struct with every field at its zero value
encodes to the empty string, and a true boolean emits its key with "true". -/
theorem claim6_witness :
    StructToQueryString (.struct
      [⟨strBytes "A", strBytes "a", .str []⟩,
       ⟨strBytes "B", strBytes "b", .int 0⟩,
       ⟨strBytes "C", strBytes "c", .bool false⟩,
       ⟨strBytes "D", strBytes "d", .slice []⟩]) = .ok [] ∧
    emitField ⟨strBytes "C", strBytes "c", .bool true⟩ =
      [(strBytes "c", strBytes "true")] := by
  constructor
  · exact claim6_zero_struct.1 _ (by decide)
  · exact claim6_zero_struct.2.2 ⟨strBytes "C", strBytes "c", .bool true⟩ rfl

/-- C7: an integer field of any width is included exactly when non-zero, and
its value is the base-10 rendering of the integer: reading the digits back
(past the minus sign for negatives) recovers the value. -/
theorem claim7_int_fields (nm tg : GoStr) (n : Int) :
    (emitField ⟨nm, tg, .int n⟩ =
      if n = 0 then [] else [(fieldKey ⟨nm, tg, .int n⟩, goFormatInt n)]) ∧
    (emitField ⟨nm, tg, .int n⟩ ≠ [] ↔ n ≠ 0) ∧
    (0 ≤ n → digitsToNat (goFormatInt n) = n.toNat) ∧
    (n < 0 → goFormatInt n = 45 :: natToDigits n.natAbs ∧
      digitsToNat (natToDigits n.natAbs) = n.natAbs) := by
  refine ⟨rfl, ?_, ?_, ?_⟩
  · by_cases h : n = 0 <;> simp [emitField, h]
  · intro h
    unfold goFormatInt
    rw [if_neg (by omega)]
    exact digitsToNat_natToDigits n.toNat
  · intro h
    unfold goFormatInt
    rw [if_pos h]
    exact ⟨rfl, digitsToNat_natToDigits n.natAbs⟩

/-- C7 witness: the field emits 5 as "5" (reading back gives 5), emits
nothing at 0, and renders -7 with a leading minus sign. -/
theorem claim7_witness :
    digitsToNat (goFormatInt 5) = (5 : Int).toNat ∧
    (emitField ⟨strBytes "R", strBytes "r", .int 0⟩ =
      if (0 : Int) = 0 then [] else
        [(fieldKey ⟨strBytes "R", strBytes "r", .int 0⟩, goFormatInt 0)]) ∧
    goFormatInt (-7) = 45 :: natToDigits (Int.natAbs (-7)) := by
  refine ⟨?_, ?_, ?_⟩
  · exact (claim7_int_fields (strBytes "R") (strBytes "r") 5).2.2.1 (by decide)
  · exact (claim7_int_fields (strBytes "R") (strBytes "r") 0).1
  · exact ((claim7_int_fields (strBytes "R") (strBytes "r") (-7)).2.2.2 (by decide)).1

/-- C8: StructToQueryString errors exactly on non-struct inputs; every
struct input succeeds (with the encoding of its emitted pairs), and a field
of an unhandled kind is silently skipped rather than causing an error. -/
theorem claim8_invalid_input :
    (∀ v : GoValue, (∃ e, StructToQueryString v = .error e) ↔ v = .notStruct) ∧
    (∀ fields : List GoField,
      StructToQueryString (.struct fields) = .ok (encodeValues (emitPairs fields))) ∧
    (∀ f : GoField, f.value = .other → emitField f = []) := by
  refine ⟨?_, fun _ => rfl, ?_⟩
  · intro v
    cases v with
    | struct fields =>
      constructor
      · rintro ⟨e, he⟩
        exact absurd he (by simp [StructToQueryString])
      · intro h
        cases h
    | notStruct =>
      exact ⟨fun _ => rfl, fun _ => ⟨.invalidInput, rfl⟩⟩
  · intro f h
    obtain ⟨nm, tg, v⟩ := f
    cases v with
    | other => rfl
    | str s => exact absurd h (by simp)
    | int n => exact absurd h (by simp)
    | bool b => exact absurd h (by simp)
    | slice elems => exact absurd h (by simp)

/-- C8 witness: the non-struct input errors with invalidInput, a struct with
an unsupported-kind field succeeds, and that field emits nothing. -/
theorem claim8_witness :
    StructToQueryString .notStruct = .error .invalidInput ∧
    StructToQueryString (.struct [⟨strBytes "F", strBytes "f", .other⟩]) =
      .ok (encodeValues (emitPairs [⟨strBytes "F", strBytes "f", .other⟩])) ∧
    emitField ⟨strBytes "F", strBytes "f", .other⟩ = [] := by
  refine ⟨?_, claim8_invalid_input.2.1 _, claim8_invalid_input.2.2 _ rfl⟩
  obtain ⟨e, he⟩ := (claim8_invalid_input.1 .notStruct).mpr rfl
  cases e
  exact he

/-- C9: encoding is idempotent as a round trip — decoding the query string
produced for a record gives exactly its emitted pairs (in Encode order), and
re-encoding any equivalent record (one whose emitted pairs are a permutation
of the decoded ones) parses back to the same set of (key, value) pairs. -/
theorem claim9_roundtrip (fields fieldsEquiv : List GoField) (q qEquiv : GoStr)
    (P : List (GoStr × GoStr))
    (hwfEquiv : wfFields fieldsEquiv = true)
    (hq : StructToQueryString (.struct fields) = .ok q)
    (hP : parseQuery q = some P)
    (hequiv : (emitPairs fieldsEquiv).Perm P)
    (hqEquiv : StructToQueryString (.struct fieldsEquiv) = .ok qEquiv) :
    ∃ PEquiv, parseQuery qEquiv = some PEquiv ∧ PEquiv.Perm P := by
  have hq1 : q = encodeValues (emitPairs fields) := by
    have := hq
    simp only [StructToQueryString] at this
    exact (Except.ok.inj this).symm
  have hq2 : qEquiv = encodeValues (emitPairs fieldsEquiv) := by
    have := hqEquiv
    simp only [StructToQueryString] at this
    exact (Except.ok.inj this).symm
  subst hq1 hq2
  refine ⟨sortPairs (emitPairs fieldsEquiv), parseQuery_struct fieldsEquiv hwfEquiv, ?_⟩
  exact (sortPairs_perm (emitPairs fieldsEquiv)).trans hequiv

/-- C9 witness: the one-field record Limit "5" encodes, decodes and
re-encodes to the same pair set. -/
theorem claim9_witness :
    ∃ PEquiv,
      parseQuery (encodeValues
        (emitPairs [⟨strBytes "Limit", strBytes "limit", .str (strBytes "5")⟩])) =
          some PEquiv ∧
      PEquiv.Perm [(strBytes "limit", strBytes "5")] := by
  exact claim9_roundtrip
    [⟨strBytes "Limit", strBytes "limit", .str (strBytes "5")⟩]
    [⟨strBytes "Limit", strBytes "limit", .str (strBytes "5")⟩]
    _ _ [(strBytes "limit", strBytes "5")]
    (by decide) rfl (by decide) (by decide) rfl

theorem request_ok (c : Client) (env : RequestEnv) (hasBody : Bool) (endpoint : GoStr)
    (resp : HttpResponse) (mb : GoStr)
    (hmar : env.marshal = .ok mb)
    (hnew : env.newRequest = .ok ())
    (hperf : env.perform (requestURL c endpoint) = .ok resp) :
    c.request env hasBody endpoint = .ok resp := by
  unfold Client.request
  cases hasBody <;> simp [hmar, hnew, hperf]

theorem request_marshal_fail (c : Client) (env : RequestEnv) (endpoint : GoStr)
    (hm : env.marshal = .error ()) :
    c.request env true endpoint = .error .marshal := by
  unfold Client.request
  rw [hm]

theorem request_transport_fail (c : Client) (env : RequestEnv) (hasBody : Bool)
    (endpoint : GoStr) (mb : GoStr)
    (hmar : env.marshal = .ok mb)
    (hnew : env.newRequest = .ok ())
    (hperf : env.perform (requestURL c endpoint) = .error ()) :
    c.request env hasBody endpoint = .error .transport := by
  unfold Client.request
  cases hasBody <;> simp [hmar, hnew, hperf]

theorem handleResponse_bad_ok {α : Type} (isBad : Nat → Bool) (resp : HttpResponse)
    (dec : GoStr → Option α) (b : GoStr) (hbad : isBad resp.statusCode = true)
    (hb : resp.bodyRead = .ok b) :
    handleResponse isBad resp dec = .error (.apiReturnedError resp.statusCode b) := by
  simp [handleResponse, hbad, hb]

theorem handleResponse_bad_err {α : Type} (isBad : Nat → Bool) (resp : HttpResponse)
    (dec : GoStr → Option α) (hbad : isBad resp.statusCode = true)
    (hb : resp.bodyRead = .error ()) :
    handleResponse isBad resp dec = .error (.readResponseBody resp.statusCode) := by
  simp [handleResponse, hbad, hb]

theorem handleResponse_good_none {α : Type} (isBad : Nat → Bool) (resp : HttpResponse)
    (dec : GoStr → Option α) (b : GoStr) (hgood : isBad resp.statusCode = false)
    (hb : resp.bodyRead = .ok b) (hd : dec b = none) :
    handleResponse isBad resp dec = .error .decodeResponse := by
  simp [handleResponse, hgood, hb, hd]

theorem ListContactsFilter_handle {α : Type} (c : Client) (env : RequestEnv)
    (filter : ListContactsFilterRequest) (dec : GoStr → Option α) (resp : HttpResponse)
    (hreq : c.request env false (listContactsFullPath filter) = .ok resp) :
    ListContactsFilter c env filter dec = handleResponse (fun s => s ≠ 200) resp dec := by
  unfold ListContactsFilter
  show (match c.request env false (listContactsFullPath filter) with
    | .error e => .error (.requestFailed e)
    | .ok r => handleResponse (fun s => s ≠ 200) r dec) =
      handleResponse (fun s => s ≠ 200) resp dec
  rw [hreq]

theorem ListDealsFilter_handle {α : Type} (c : Client) (env : RequestEnv)
    (filter : ListDealsFilterRequest) (dec : GoStr → Option α) (resp : HttpResponse)
    (hreq : c.request env false (listDealsFullPath filter) = .ok resp) :
    ListDealsFilter c env filter dec = handleResponse (fun s => s ≠ 200) resp dec := by
  unfold ListDealsFilter
  show (match c.request env false (listDealsFullPath filter) with
    | .error e => .error (.requestFailed e)
    | .ok r => handleResponse (fun s => s ≠ 200) r dec) =
      handleResponse (fun s => s ≠ 200) resp dec
  rw [hreq]

theorem CreateDeal_handle {α : Type} (c : Client) (env : RequestEnv)
    (dec : GoStr → Option α) (resp : HttpResponse)
    (hreq : c.request env true createDealEndpoint = .ok resp) :
    CreateDeal c env dec = handleResponse (fun s => s ≠ 200 ∧ s ≠ 201) resp dec := by
  unfold CreateDeal
  rw [hreq]

theorem CreateContact_handle {α : Type} (c : Client) (env : RequestEnv)
    (dec : GoStr → Option α) (resp : HttpResponse)
    (hreq : c.request env true createContactEndpoint = .ok resp) :
    CreateContact c env dec = handleResponse (fun s => s ≠ 200 ∧ s ≠ 201) resp dec := by
  unfold CreateContact
  rw [hreq]

theorem UpdateDeal_handle {α : Type} (c : Client) (env : RequestEnv) (dealID : GoStr)
    (dec : GoStr → Option α) (resp : HttpResponse)
    (hreq : c.request env true (updateDealPath dealID) = .ok resp) :
    UpdateDeal c env dealID dec = handleResponse (fun s => s ≠ 200) resp dec := by
  unfold UpdateDeal
  rw [hreq]

theorem UpdateContact_handle {α : Type} (c : Client) (env : RequestEnv) (contactID : GoStr)
    (dec : GoStr → Option α) (resp : HttpResponse)
    (hreq : c.request env true (updateContactPath contactID) = .ok resp) :
    UpdateContact c env contactID dec = handleResponse (fun s => s ≠ 200) resp dec := by
  unfold UpdateContact
  rw [hreq]

/-- C1: whenever the response status is outside the call's acceptable set
(200 for the list and update calls, 200/201 for the creation calls), the
call returns ErrApiReturnedError carrying the status code and the raw body
verbatim — or ErrReadResponseBody when reading that body fails — and no JSON
decode into the target type is attempted: the result is the same for every
decode function, which is therefore never consulted. -/
theorem claim1_rejected_status
    (c : Client) (env : RequestEnv) (resp : HttpResponse)
    (filterC : ListContactsFilterRequest) (filterD : ListDealsFilterRequest)
    (dealID contactID : GoStr) (mb : GoStr)
    (hmar : env.marshal = .ok mb)
    (hnew : env.newRequest = .ok ())
    (hperf : ∀ u, env.perform u = .ok resp) :
    (resp.statusCode ≠ 200 →
      ((∀ b, resp.bodyRead = .ok b → ∀ {α : Type} (dec : GoStr → Option α),
        ListContactsFilter c env filterC dec = .error (.apiReturnedError resp.statusCode b) ∧
        ListDealsFilter c env filterD dec = .error (.apiReturnedError resp.statusCode b) ∧
        UpdateDeal c env dealID dec = .error (.apiReturnedError resp.statusCode b) ∧
        UpdateContact c env contactID dec = .error (.apiReturnedError resp.statusCode b)) ∧
      (resp.bodyRead = .error () → ∀ {α : Type} (dec : GoStr → Option α),
        ListContactsFilter c env filterC dec = .error (.readResponseBody resp.statusCode) ∧
        ListDealsFilter c env filterD dec = .error (.readResponseBody resp.statusCode) ∧
        UpdateDeal c env dealID dec = .error (.readResponseBody resp.statusCode) ∧
        UpdateContact c env contactID dec = .error (.readResponseBody resp.statusCode)))) ∧
    ((resp.statusCode ≠ 200 ∧ resp.statusCode ≠ 201) →
      ((∀ b, resp.bodyRead = .ok b → ∀ {α : Type} (dec : GoStr → Option α),
        CreateDeal c env dec = .error (.apiReturnedError resp.statusCode b) ∧
        CreateContact c env dec = .error (.apiReturnedError resp.statusCode b)) ∧
      (resp.bodyRead = .error () → ∀ {α : Type} (dec : GoStr → Option α),
        CreateDeal c env dec = .error (.readResponseBody resp.statusCode) ∧
        CreateContact c env dec = .error (.readResponseBody resp.statusCode)))) := by
  constructor
  · intro hs
    constructor
    · intro b hb α dec
      refine ⟨?_, ?_, ?_, ?_⟩
      · rw [ListContactsFilter_handle c env filterC dec resp
          (request_ok c env false _ resp mb hmar hnew (hperf _))]
        exact handleResponse_bad_ok _ resp dec b (decide_eq_true hs) hb
      · rw [ListDealsFilter_handle c env filterD dec resp
          (request_ok c env false _ resp mb hmar hnew (hperf _))]
        exact handleResponse_bad_ok _ resp dec b (decide_eq_true hs) hb
      · rw [UpdateDeal_handle c env dealID dec resp
          (request_ok c env true _ resp mb hmar hnew (hperf _))]
        exact handleResponse_bad_ok _ resp dec b (decide_eq_true hs) hb
      · rw [UpdateContact_handle c env contactID dec resp
          (request_ok c env true _ resp mb hmar hnew (hperf _))]
        exact handleResponse_bad_ok _ resp dec b (decide_eq_true hs) hb
    · intro hb α dec
      refine ⟨?_, ?_, ?_, ?_⟩
      · rw [ListContactsFilter_handle c env filterC dec resp
          (request_ok c env false _ resp mb hmar hnew (hperf _))]
        exact handleResponse_bad_err _ resp dec (decide_eq_true hs) hb
      · rw [ListDealsFilter_handle c env filterD dec resp
          (request_ok c env false _ resp mb hmar hnew (hperf _))]
        exact handleResponse_bad_err _ resp dec (decide_eq_true hs) hb
      · rw [UpdateDeal_handle c env dealID dec resp
          (request_ok c env true _ resp mb hmar hnew (hperf _))]
        exact handleResponse_bad_err _ resp dec (decide_eq_true hs) hb
      · rw [UpdateContact_handle c env contactID dec resp
          (request_ok c env true _ resp mb hmar hnew (hperf _))]
        exact handleResponse_bad_err _ resp dec (decide_eq_true hs) hb
  · intro hs
    constructor
    · intro b hb α dec
      constructor
      · rw [CreateDeal_handle c env dec resp
          (request_ok c env true _ resp mb hmar hnew (hperf _))]
        exact handleResponse_bad_ok _ resp dec b (decide_eq_true hs) hb
      · rw [CreateContact_handle c env dec resp
          (request_ok c env true _ resp mb hmar hnew (hperf _))]
        exact handleResponse_bad_ok _ resp dec b (decide_eq_true hs) hb
    · intro hb α dec
      constructor
      · rw [CreateDeal_handle c env dec resp
          (request_ok c env true _ resp mb hmar hnew (hperf _))]
        exact handleResponse_bad_err _ resp dec (decide_eq_true hs) hb
      · rw [CreateContact_handle c env dec resp
          (request_ok c env true _ resp mb hmar hnew (hperf _))]
        exact handleResponse_bad_err _ resp dec (decide_eq_true hs) hb

/-- C1 witness: a 404 response with body "not found" makes the contacts
listing call and the deal creation call return ErrApiReturnedError with
status 404 and that body, with no decode attempted. -/
theorem claim1_witness :
    ListContactsFilter ⟨strBytes "base", strBytes "tk"⟩
        ⟨.ok [], .ok (), fun _ => .ok ⟨404, .ok (strBytes "not found")⟩⟩
        ⟨[], [], [], [], [], [], [], [], []⟩ (fun _ => (none : Option Unit)) =
      .error (.apiReturnedError 404 (strBytes "not found")) ∧
    CreateDeal ⟨strBytes "base", strBytes "tk"⟩
        ⟨.ok [], .ok (), fun _ => .ok ⟨404, .ok (strBytes "not found")⟩⟩
        (fun _ => (none : Option Unit)) =
      .error (.apiReturnedError 404 (strBytes "not found")) := by
  have h := claim1_rejected_status ⟨strBytes "base", strBytes "tk"⟩
    ⟨.ok [], .ok (), fun _ => .ok ⟨404, .ok (strBytes "not found")⟩⟩
    ⟨404, .ok (strBytes "not found")⟩
    ⟨[], [], [], [], [], [], [], [], []⟩
    ⟨[], [], [], [], [], [], [], [], [], [], [], [], [], [], [], [], [], [], [], [], [], [], []⟩
    [] [] [] rfl rfl (fun _ => rfl)
  exact ⟨((h.1 (by decide)).1 _ rfl (fun _ => (none : Option Unit))).1,
    ((h.2 ⟨by decide, by decide⟩).1 _ rfl (fun _ => (none : Option Unit))).1⟩

/-- C2: when the status is acceptable (200 for every call, also 201 for the
creation calls) but the body does not decode as JSON into the target type,
the call returns ErrDecodeResponse — never a success carrying a zero-valued
payload, since the result is an error, not an .ok. -/
theorem claim2_decode_error
    (c : Client) (env : RequestEnv) (resp : HttpResponse)
    (filterC : ListContactsFilterRequest) (filterD : ListDealsFilterRequest)
    (dealID contactID : GoStr) (mb : GoStr)
    (hmar : env.marshal = .ok mb)
    (hnew : env.newRequest = .ok ())
    (hperf : ∀ u, env.perform u = .ok resp) :
    (resp.statusCode = 200 → ∀ b, resp.bodyRead = .ok b →
      ∀ {α : Type} (dec : GoStr → Option α), dec b = none →
        ListContactsFilter c env filterC dec = .error .decodeResponse ∧
        ListDealsFilter c env filterD dec = .error .decodeResponse ∧
        UpdateDeal c env dealID dec = .error .decodeResponse ∧
        UpdateContact c env contactID dec = .error .decodeResponse ∧
        CreateDeal c env dec = .error .decodeResponse ∧
        CreateContact c env dec = .error .decodeResponse) ∧
    (resp.statusCode = 201 → ∀ b, resp.bodyRead = .ok b →
      ∀ {α : Type} (dec : GoStr → Option α), dec b = none →
        CreateDeal c env dec = .error .decodeResponse ∧
        CreateContact c env dec = .error .decodeResponse) := by
  constructor
  · intro hs b hb α dec hd
    have hgood1 : (fun s => decide (s ≠ 200)) resp.statusCode = false := by
      rw [hs]
      decide
    have hgood2 : (fun s => decide (s ≠ 200 ∧ s ≠ 201)) resp.statusCode = false := by
      rw [hs]
      decide
    refine ⟨?_, ?_, ?_, ?_, ?_, ?_⟩
    · rw [ListContactsFilter_handle c env filterC dec resp
        (request_ok c env false _ resp mb hmar hnew (hperf _))]
      exact handleResponse_good_none _ resp dec b hgood1 hb hd
    · rw [ListDealsFilter_handle c env filterD dec resp
        (request_ok c env false _ resp mb hmar hnew (hperf _))]
      exact handleResponse_good_none _ resp dec b hgood1 hb hd
    · rw [UpdateDeal_handle c env dealID dec resp
        (request_ok c env true _ resp mb hmar hnew (hperf _))]
      exact handleResponse_good_none _ resp dec b hgood1 hb hd
    · rw [UpdateContact_handle c env contactID dec resp
        (request_ok c env true _ resp mb hmar hnew (hperf _))]
      exact handleResponse_good_none _ resp dec b hgood1 hb hd
    · rw [CreateDeal_handle c env dec resp
        (request_ok c env true _ resp mb hmar hnew (hperf _))]
      exact handleResponse_good_none _ resp dec b hgood2 hb hd
    · rw [CreateContact_handle c env dec resp
        (request_ok c env true _ resp mb hmar hnew (hperf _))]
      exact handleResponse_good_none _ resp dec b hgood2 hb hd
  · intro hs b hb α dec hd
    have hgood2 : (fun s => decide (s ≠ 200 ∧ s ≠ 201)) resp.statusCode = false := by
      rw [hs]
      decide
    constructor
    · rw [CreateDeal_handle c env dec resp
        (request_ok c env true _ resp mb hmar hnew (hperf _))]
      exact handleResponse_good_none _ resp dec b hgood2 hb hd
    · rw [CreateContact_handle c env dec resp
        (request_ok c env true _ resp mb hmar hnew (hperf _))]
      exact handleResponse_good_none _ resp dec b hgood2 hb hd

/-- C2 witness: a 200 response whose body "{" is rejected by the decoder
makes the contacts listing call return ErrDecodeResponse, and a 201 response
does the same for the deal creation call. -/
theorem claim2_witness :
    ListContactsFilter ⟨strBytes "base", strBytes "tk"⟩
        ⟨.ok [], .ok (), fun _ => .ok ⟨200, .ok (strBytes "\x7b")⟩⟩
        ⟨[], [], [], [], [], [], [], [], []⟩ (fun _ => (none : Option Unit)) =
      .error .decodeResponse ∧
    CreateDeal ⟨strBytes "base", strBytes "tk"⟩
        ⟨.ok [], .ok (), fun _ => .ok ⟨201, .ok (strBytes "\x7b")⟩⟩
        (fun _ => (none : Option Unit)) =
      .error .decodeResponse := by
  have h1 := claim2_decode_error ⟨strBytes "base", strBytes "tk"⟩
    ⟨.ok [], .ok (), fun _ => .ok ⟨200, .ok (strBytes "\x7b")⟩⟩
    ⟨200, .ok (strBytes "\x7b")⟩
    ⟨[], [], [], [], [], [], [], [], []⟩
    ⟨[], [], [], [], [], [], [], [], [], [], [], [], [], [], [], [], [], [], [], [], [], [], []⟩
    [] [] [] rfl rfl (fun _ => rfl)
  have h2 := claim2_decode_error ⟨strBytes "base", strBytes "tk"⟩
    ⟨.ok [], .ok (), fun _ => .ok ⟨201, .ok (strBytes "\x7b")⟩⟩
    ⟨201, .ok (strBytes "\x7b")⟩
    ⟨[], [], [], [], [], [], [], [], []⟩
    ⟨[], [], [], [], [], [], [], [], [], [], [], [], [], [], [], [], [], [], [], [], [], [], []⟩
    [] [] [] rfl rfl (fun _ => rfl)
  exact ⟨(h1.1 rfl _ rfl (fun _ => (none : Option Unit)) rfl).1,
    (h2.2 rfl _ rfl (fun _ => (none : Option Unit)) rfl).1⟩

/-- C3 counterexample: the claim says a body-serialization failure yields a
serialization-classified error distinct from the transport-failure class; in
the code both a json.Marshal failure and a transport failure surface from
CreateDeal wrapped in the same sentinel, ErrRequestFailed, so at this
concrete input the two error classes coincide instead of being distinct. -/
theorem claim3_counterexample :
    CreateDeal ⟨strBytes "base", strBytes "tk"⟩
        ⟨.error (), .ok (), fun _ => .ok ⟨200, .ok []⟩⟩
        (fun _ => (none : Option Unit)) = .error (.requestFailed .marshal) ∧
    resultClass (CreateDeal ⟨strBytes "base", strBytes "tk"⟩
        ⟨.error (), .ok (), fun _ => .ok ⟨200, .ok []⟩⟩
        (fun _ => (none : Option Unit))) =
      resultClass (CreateDeal ⟨strBytes "base", strBytes "tk"⟩
        ⟨.ok [], .ok (), fun _ => .error ()⟩
        (fun _ => (none : Option Unit))) ∧
    resultClass (CreateDeal ⟨strBytes "base", strBytes "tk"⟩
        ⟨.error (), .ok (), fun _ => .ok ⟨200, .ok []⟩⟩
        (fun _ => (none : Option Unit))) = some .requestFailed := by
  refine ⟨rfl, rfl, rfl⟩

/-- C3 amended: a failure to serialize the request body is returned wrapped
— classified under ErrRequestFailed, the same sentinel as transport
failures, carrying the marshal cause; no distinct serialization class
exists, but no raw error crosses the boundary unwrapped. -/
theorem claim3_amended (c : Client) (env : RequestEnv) {α : Type}
    (dec : GoStr → Option α) (dealID contactID : GoStr)
    (hm : env.marshal = .error ()) :
    CreateDeal c env dec = .error (.requestFailed .marshal) ∧
    UpdateDeal c env dealID dec = .error (.requestFailed .marshal) ∧
    CreateContact c env dec = .error (.requestFailed .marshal) ∧
    UpdateContact c env contactID dec = .error (.requestFailed .marshal) ∧
    errClass (ClientError.requestFailed RawErr.marshal) = ErrClass.requestFailed := by
  refine ⟨?_, ?_, ?_, ?_, rfl⟩
  · unfold CreateDeal
    rw [request_marshal_fail c env _ hm]
  · unfold UpdateDeal
    rw [request_marshal_fail c env _ hm]
  · unfold CreateContact
    rw [request_marshal_fail c env _ hm]
  · unfold UpdateContact
    rw [request_marshal_fail c env _ hm]

/-- C3 amended witness: with a failing marshaller, CreateDeal returns the
ErrRequestFailed-classified wrap of the marshal cause. -/
theorem claim3_witness :
    CreateDeal ⟨strBytes "base", strBytes "tk"⟩
        ⟨.error (), .ok (), fun _ => .ok ⟨200, .ok []⟩⟩
        (fun _ => (none : Option Unit)) = .error (.requestFailed .marshal) ∧
    errClass (ClientError.requestFailed RawErr.marshal) = ErrClass.requestFailed := by
  have h := claim3_amended ⟨strBytes "base", strBytes "tk"⟩
    ⟨.error (), .ok (), fun _ => .ok ⟨200, .ok []⟩⟩
    (fun _ => (none : Option Unit)) [] [] rfl
  exact ⟨h.1, h.2.2.2.2⟩

/-- C4 counterexample: the claim picks the separator by whether the endpoint
has a query string; with base URL "b?x" (which contains '?') and endpoint
"e" (which has none), the code joins with '&', not the '?' the claim
requires. -/
theorem claim4_counterexample :
    requestURL ⟨strBytes "b?x", strBytes "t"⟩ (strBytes "e") =
      strBytes "b?x/e&token=t" ∧
    requestURL ⟨strBytes "b?x", strBytes "t"⟩ (strBytes "e") ≠
      strBytes "b?x/e?token=t" := by
  constructor
  · decide
  · decide

/-- C4 amended: the full URL is the base URL, '/', the endpoint, then
"token=" and the token as a query parameter, separated by '&' when the base
URL or the endpoint already contains '?' and by '?' otherwise. -/
theorem claim4_amended (c : Client) (endpoint : GoStr) :
    requestURL c endpoint =
      c.baseUrl ++ 47 :: endpoint ++
        ((if 63 ∈ c.baseUrl ∨ 63 ∈ endpoint then [38] else [63]) ++
          (strBytes "token=" ++ c.token)) := by
  show (c.baseUrl ++ 47 :: endpoint) ++
      ((if (63 : Nat) ∈ c.baseUrl ++ 47 :: endpoint then [38] else [63]) ++
        (strBytes "token=" ++ c.token)) =
    c.baseUrl ++ 47 :: endpoint ++
      ((if 63 ∈ c.baseUrl ∨ 63 ∈ endpoint then [38] else [63]) ++
        (strBytes "token=" ++ c.token))
  have hiff : ((63 : Nat) ∈ c.baseUrl ++ 47 :: endpoint) = (63 ∈ c.baseUrl ∨ 63 ∈ endpoint) := by
    simp [List.mem_append]
  simp only [hiff]

theorem countKey_nil (k : GoStr) : countKey k [] = 0 := rfl

theorem countKey_append (k : GoStr) (ps qs : List (GoStr × GoStr)) :
    countKey k (ps ++ qs) = countKey k ps + countKey k qs := by
  simp [countKey, List.countP_append]

theorem countKey_perm (k : GoStr) (ps qs : List (GoStr × GoStr)) (h : ps.Perm qs) :
    countKey k ps = countKey k qs :=
  h.countP_eq _

theorem countKey_emitField_of_key_ne (f : GoField) (k : GoStr) (h : fieldKey f ≠ k) :
    countKey k (emitField f) = 0 := by
  obtain ⟨nm, tg, v⟩ := f
  cases v with
  | str s =>
    by_cases hs : s = [] <;> simp [emitField, hs, countKey, h]
  | int n =>
    by_cases hn : n = 0 <;> simp [emitField, hn, countKey, h]
  | bool b =>
    cases b <;> simp [emitField, countKey, h]
  | slice elems =>
    simp only [emitField, countKey]
    rw [List.countP_eq_zero]
    intro kv hkv
    rcases List.mem_map.mp hkv with ⟨e, _, rfl⟩
    simpa using h
  | other => rfl

theorem countKey_emit_token (nm v : GoStr) (hv : v ≠ []) :
    countKey (strBytes "token") (emitField ⟨nm, strBytes "token", .str v⟩) = 1 := by
  have hk : fieldKey ⟨nm, strBytes "token", .str v⟩ = strBytes "token" := by
    unfold fieldKey
    rw [if_neg]
    rintro (h1 | h2)
    · exact absurd (show strBytes "token" = [] from h1) (by decide)
    · exact absurd (show strBytes "token" = strBytes "-" from h2) (by decide)
  simp [emitField, hv, countKey, hk]

theorem fieldKey_of_tag (nm tg : GoStr) (v : FieldValue) (h1 : tg ≠ [])
    (h2 : tg ≠ strBytes "-") : fieldKey ⟨nm, tg, v⟩ = tg := by
  unfold fieldKey
  rw [if_neg]
  rintro (ha | hb)
  · exact h1 ha
  · exact h2 hb

theorem countKey_emit_str_tag_ne (nm tg v k : GoStr) (h1 : tg ≠ [])
    (h2 : tg ≠ strBytes "-") (h3 : tg ≠ k) :
    countKey k (emitField ⟨nm, tg, .str v⟩) = 0 := by
  apply countKey_emitField_of_key_ne
  rw [fieldKey_of_tag nm tg _ h1 h2]
  exact h3

theorem countKey_token_deals (r : ListDealsFilterRequest) (h : r.Token ≠ []) :
    countKey (strBytes "token") (emitPairs r.toFields) = 1 := by
  unfold ListDealsFilterRequest.toFields emitPairs
  simp only [List.flatMap_cons, List.flatMap_nil, List.append_nil, countKey_append]
  rw [countKey_emit_token (strBytes "Token") r.Token h]
  rw [countKey_emit_str_tag_ne (strBytes "Page") (strBytes "page") r.Page
    (strBytes "token") (by decide) (by decide) (by decide)]
  rw [countKey_emit_str_tag_ne (strBytes "Limit") (strBytes "limit") r.Limit
    (strBytes "token") (by decide) (by decide) (by decide)]
  rw [countKey_emit_str_tag_ne (strBytes "Order") (strBytes "order") r.Order
    (strBytes "token") (by decide) (by decide) (by decide)]
  rw [countKey_emit_str_tag_ne (strBytes "Direction") (strBytes "direction") r.Direction
    (strBytes "token") (by decide) (by decide) (by decide)]
  rw [countKey_emit_str_tag_ne (strBytes "Name") (strBytes "name") r.Name
    (strBytes "token") (by decide) (by decide) (by decide)]
  rw [countKey_emit_str_tag_ne (strBytes "ExactName") (strBytes "exact_name") r.ExactName
    (strBytes "token") (by decide) (by decide) (by decide)]
  rw [countKey_emit_str_tag_ne (strBytes "Win") (strBytes "win") r.Win
    (strBytes "token") (by decide) (by decide) (by decide)]
  rw [countKey_emit_str_tag_ne (strBytes "UserID") (strBytes "user_id") r.UserID
    (strBytes "token") (by decide) (by decide) (by decide)]
  rw [countKey_emit_str_tag_ne (strBytes "ClosedAt") (strBytes "closed_at") r.ClosedAt
    (strBytes "token") (by decide) (by decide) (by decide)]
  rw [countKey_emit_str_tag_ne (strBytes "ClosedAtPeriod") (strBytes "closed_at_period") r.ClosedAtPeriod
    (strBytes "token") (by decide) (by decide) (by decide)]
  rw [countKey_emit_str_tag_ne (strBytes "CreatedAtPeriod") (strBytes "created_at_period") r.CreatedAtPeriod
    (strBytes "token") (by decide) (by decide) (by decide)]
  rw [countKey_emit_str_tag_ne (strBytes "PredictionDatePeriod") (strBytes "prediction_date_period") r.PredictionDatePeriod
    (strBytes "token") (by decide) (by decide) (by decide)]
  rw [countKey_emit_str_tag_ne (strBytes "StartDate") (strBytes "start_date") r.StartDate
    (strBytes "token") (by decide) (by decide) (by decide)]
  rw [countKey_emit_str_tag_ne (strBytes "EndDate") (strBytes "end_date") r.EndDate
    (strBytes "token") (by decide) (by decide) (by decide)]
  rw [countKey_emit_str_tag_ne (strBytes "CampaignID") (strBytes "campaign_id") r.CampaignID
    (strBytes "token") (by decide) (by decide) (by decide)]
  rw [countKey_emit_str_tag_ne (strBytes "DealStageID") (strBytes "deal_stage_id") r.DealStageID
    (strBytes "token") (by decide) (by decide) (by decide)]
  rw [countKey_emit_str_tag_ne (strBytes "DealLostReasonID") (strBytes "deal_lost_reason_id") r.DealLostReasonID
    (strBytes "token") (by decide) (by decide) (by decide)]
  rw [countKey_emit_str_tag_ne (strBytes "DealPipelineID") (strBytes "deal_pipeline_id") r.DealPipelineID
    (strBytes "token") (by decide) (by decide) (by decide)]
  rw [countKey_emit_str_tag_ne (strBytes "Organization") (strBytes "organization") r.Organization
    (strBytes "token") (by decide) (by decide) (by decide)]
  rw [countKey_emit_str_tag_ne (strBytes "Hold") (strBytes "hold") r.Hold
    (strBytes "token") (by decide) (by decide) (by decide)]
  rw [countKey_emit_str_tag_ne (strBytes "ProductPresence") (strBytes "product_presence") r.ProductPresence
    (strBytes "token") (by decide) (by decide) (by decide)]
  rw [countKey_emit_str_tag_ne (strBytes "NextPage") (strBytes "next_page") r.NextPage
    (strBytes "token") (by decide) (by decide) (by decide)]

theorem joinAmp_ne_nil (segs : List GoStr) (h : ∀ s ∈ segs, s ≠ [])
    (hne : segs ≠ []) : joinAmp segs ≠ [] := by
  cases segs with
  | nil => exact absurd rfl hne
  | cons s rest =>
    cases rest with
    | nil => exact h s (List.mem_cons_self s [])
    | cons t rest2 =>
      rw [joinAmp_cons₂]
      simp

theorem joinAmp_append_singleton (l : List GoStr) (x : GoStr) (h : l ≠ []) :
    joinAmp (l ++ [x]) = joinAmp l ++ 38 :: x := by
  induction l with
  | nil => exact absurd rfl h
  | cons a rest ih =>
    cases rest with
    | nil => rfl
    | cons b rest2 =>
      have ih2 := ih (by simp)
      simp only [List.cons_append] at ih2 ⊢
      simp only [joinAmp_cons₂]
      rw [ih2]
      simp [List.append_assoc]

theorem parseSegments_append_single (xs : List GoStr) (x : GoStr)
    (ps : List (GoStr × GoStr)) (kv : GoStr × GoStr)
    (hxs : parseSegments xs = some ps) (hx : parseSegment x = some kv) :
    parseSegments (xs ++ [x]) = some (ps ++ [kv]) := by
  induction xs generalizing ps with
  | nil =>
    simp only [parseSegments] at hxs
    cases hxs
    simp [parseSegments, hx]
  | cons s rest ih =>
    simp only [parseSegments] at hxs
    cases hs : parseSegment s with
    | none => rw [hs] at hxs; exact absurd hxs (by simp)
    | some kv1 =>
      rw [hs] at hxs
      cases hr : parseSegments rest with
      | none => rw [hr] at hxs; exact absurd hxs (by simp)
      | some ps1 =>
        rw [hr] at hxs
        simp only [Option.some.injEq] at hxs
        subst hxs
        simp [parseSegments, hs, ih ps1 hr]

theorem token_seg_not_amp (tok : GoStr) (h : tok.all isUnreserved = true) :
    (38 : Nat) ∉ strBytes "token=" ++ tok := by
  intro hmem
  rcases List.mem_append.mp hmem with h1 | h1
  · exact absurd h1 (by decide)
  · simp only [List.all_eq_true] at h
    exact absurd (h 38 h1) (by decide)

theorem token_seg_not_semi (tok : GoStr) (h : tok.all isUnreserved = true) :
    (59 : Nat) ∉ strBytes "token=" ++ tok := by
  intro hmem
  rcases List.mem_append.mp hmem with h1 | h1
  · exact absurd h1 (by decide)
  · simp only [List.all_eq_true] at h
    exact absurd (h 59 h1) (by decide)

theorem parseSegment_token (tok : GoStr) (h : tok.all isUnreserved = true) :
    parseSegment (strBytes "token=" ++ tok) = some (strBytes "token", tok) := by
  have hshape : strBytes "token=" ++ tok = strBytes "token" ++ 61 :: tok := rfl
  unfold parseSegment
  rw [if_neg (token_seg_not_semi tok h)]
  rw [hshape, cutByte_append 61 _ _ (by decide)]
  simp only
  rw [queryUnescape_unreserved (strBytes "token") (by decide),
    queryUnescape_unreserved tok h]


theorem countKey_token_contacts (r : ListContactsFilterRequest) (h : r.Token ≠ []) :
    countKey (strBytes "token") (emitPairs r.toFields) = 1 := by
  unfold ListContactsFilterRequest.toFields emitPairs
  simp only [List.flatMap_cons, List.flatMap_nil, List.append_nil, countKey_append]
  rw [countKey_emit_token (strBytes "Token") r.Token h]
  rw [countKey_emit_str_tag_ne (strBytes "Page") (strBytes "page") r.Page
    (strBytes "token") (by decide) (by decide) (by decide)]
  rw [countKey_emit_str_tag_ne (strBytes "Limit") (strBytes "limit") r.Limit
    (strBytes "token") (by decide) (by decide) (by decide)]
  rw [countKey_emit_str_tag_ne (strBytes "Order") (strBytes "order") r.Order
    (strBytes "token") (by decide) (by decide) (by decide)]
  rw [countKey_emit_str_tag_ne (strBytes "Direction") (strBytes "direction") r.Direction
    (strBytes "token") (by decide) (by decide) (by decide)]
  rw [countKey_emit_str_tag_ne (strBytes "Email") (strBytes "email") r.Email
    (strBytes "token") (by decide) (by decide) (by decide)]
  rw [countKey_emit_str_tag_ne (strBytes "Q") (strBytes "q") r.Q
    (strBytes "token") (by decide) (by decide) (by decide)]
  rw [countKey_emit_str_tag_ne (strBytes "Phone") (strBytes "phone") r.Phone
    (strBytes "token") (by decide) (by decide) (by decide)]
  rw [countKey_emit_str_tag_ne (strBytes "Title") (strBytes "title") r.Title
    (strBytes "token") (by decide) (by decide) (by decide)]

theorem ne_nil_of_countKey_one (k : GoStr) (ps : List (GoStr × GoStr))
    (h : countKey k ps = 1) : ps ≠ [] := by
  intro hnil
  rw [hnil, countKey_nil] at h
  exact absurd h (by decide)

theorem sortPairs_ne_nil (ps : List (GoStr × GoStr)) (h : ps ≠ []) :
    sortPairs ps ≠ [] := by
  intro hnil
  have hlen := (sortPairs_perm ps).length_eq
  rw [hnil] at hlen
  exact h (List.length_eq_zero.mp hlen.symm)

theorem encodeValues_ne_nil (ps : List (GoStr × GoStr)) (h : ps ≠ []) :
    encodeValues ps ≠ [] := by
  unfold encodeValues
  refine joinAmp_ne_nil _ (fun s hs => ?_) ?_
  · rcases List.mem_map.mp hs with ⟨kv, _, rfl⟩
    exact segOf_ne_nil kv
  · simpa using sortPairs_ne_nil ps h

theorem listDealsFullPath_eq (r : ListDealsFilterRequest)
    (h : encodeValues (emitPairs r.toFields) ≠ []) :
    listDealsFullPath r = listDealsEndpoint ++ 63 :: encodeValues (emitPairs r.toFields) := by
  unfold listDealsFullPath
  show (if encodeValues (emitPairs r.toFields) ≠ [] then
      listDealsEndpoint ++ 63 :: encodeValues (emitPairs r.toFields)
    else listDealsEndpoint) = _
  rw [if_pos h]

theorem listContactsFullPath_eq (r : ListContactsFilterRequest)
    (h : encodeValues (emitPairs r.toFields) ≠ []) :
    listContactsFullPath r =
      listContactsEndpoint ++ 63 :: encodeValues (emitPairs r.toFields) := by
  unfold listContactsFullPath
  show (if encodeValues (emitPairs r.toFields) ≠ [] then
      listContactsEndpoint ++ 63 :: encodeValues (emitPairs r.toFields)
    else listContactsEndpoint) = _
  rw [if_pos h]

theorem token_twice_generic (c : Client) (fields : List GoField) (ep : GoStr)
    (hcount : countKey (strBytes "token") (emitPairs fields) = 1)
    (hwf : wfFields fields = true)
    (hbase : (63 : Nat) ∉ c.baseUrl)
    (hep : (63 : Nat) ∉ ep)
    (htkn : c.token.all isUnreserved = true) :
    parseQuery (queryPart (requestURL c (ep ++ 63 :: encodeValues (emitPairs fields)))) =
      some (sortPairs (emitPairs fields) ++ [(strBytes "token", c.token)]) ∧
    countKey (strBytes "token")
      (sortPairs (emitPairs fields) ++ [(strBytes "token", c.token)]) = 2 := by
  have hwfp : wfPairs (emitPairs fields) := wfPairs_emitPairs _ hwf
  have hwfs : wfPairs (sortPairs (emitPairs fields)) :=
    wfPairs_of_perm _ _ (sortPairs_perm _) hwfp
  have hcnt_sorted : countKey (strBytes "token") (sortPairs (emitPairs fields)) = 1 := by
    rw [countKey_perm _ _ _ (sortPairs_perm _)]
    exact hcount
  have hsortne : sortPairs (emitPairs fields) ≠ [] :=
    sortPairs_ne_nil _ (ne_nil_of_countKey_one _ _ hcount)
  have hsegsne : (sortPairs (emitPairs fields)).map segOf ≠ [] := by
    simpa using hsortne
  have hurl : requestURL c (ep ++ 63 :: encodeValues (emitPairs fields)) =
      (c.baseUrl ++ 47 :: ep) ++ 63 ::
        (encodeValues (emitPairs fields) ++ 38 :: (strBytes "token=" ++ c.token)) := by
    show (c.baseUrl ++ 47 :: (ep ++ 63 :: encodeValues (emitPairs fields))) ++
        ((if (63 : Nat) ∈ c.baseUrl ++ 47 ::
            (ep ++ 63 :: encodeValues (emitPairs fields)) then [38]
          else [63]) ++ (strBytes "token=" ++ c.token)) = _
    rw [if_pos (by simp)]
    simp [List.append_assoc, List.cons_append]
  have hnotin : (63 : Nat) ∉ c.baseUrl ++ 47 :: ep := by
    intro hmem
    rcases List.mem_append.mp hmem with h1 | h1
    · exact hbase h1
    · rcases List.mem_cons.mp h1 with h2 | h2
      · exact absurd h2 (by decide)
      · exact hep h2
  have hqp : queryPart (requestURL c (ep ++ 63 :: encodeValues (emitPairs fields))) =
      encodeValues (emitPairs fields) ++ 38 :: (strBytes "token=" ++ c.token) := by
    rw [hurl]
    unfold queryPart
    rw [cutByte_append 63 _ _ hnotin]
  have hjoin : encodeValues (emitPairs fields) ++ 38 :: (strBytes "token=" ++ c.token) =
      joinAmp (((sortPairs (emitPairs fields)).map segOf) ++
        [strBytes "token=" ++ c.token]) := by
    rw [joinAmp_append_singleton _ _ hsegsne]
    rfl
  have hsplit : splitOnByte 38 (joinAmp (((sortPairs (emitPairs fields)).map segOf) ++
        [strBytes "token=" ++ c.token])) =
      ((sortPairs (emitPairs fields)).map segOf) ++ [strBytes "token=" ++ c.token] := by
    refine splitOnByte_joinAmp _ (fun p hp => ?_) (by simp)
    rcases List.mem_append.mp hp with h1 | h1
    · rcases List.mem_map.mp h1 with ⟨kv, _, rfl⟩
      exact segOf_not_amp kv
    · rcases List.mem_singleton.mp h1 with rfl
      exact token_seg_not_amp c.token htkn
  have htsne : strBytes "token=" ++ c.token = 116 :: (strBytes "oken=" ++ c.token) := rfl
  have hfilter : ((((sortPairs (emitPairs fields)).map segOf) ++
        [strBytes "token=" ++ c.token]).filter (fun seg => seg ≠ [])) =
      ((sortPairs (emitPairs fields)).map segOf) ++ [strBytes "token=" ++ c.token] := by
    refine List.filter_eq_self.mpr (fun a ha => ?_)
    rcases List.mem_append.mp ha with h1 | h1
    · rcases List.mem_map.mp h1 with ⟨kv, _, rfl⟩
      simpa using segOf_ne_nil kv
    · rcases List.mem_singleton.mp h1 with rfl
      simp [htsne]
  have hparse : parseSegments (((sortPairs (emitPairs fields)).map segOf) ++
        [strBytes "token=" ++ c.token]) =
      some (sortPairs (emitPairs fields) ++ [(strBytes "token", c.token)]) :=
    parseSegments_append_single _ _ _ _ (parseSegments_map _ hwfs)
      (parseSegment_token c.token htkn)
  constructor
  · unfold parseQuery
    rw [hqp, hjoin, hsplit, hfilter, hparse]
  · rw [countKey_append, hcnt_sorted]
    simp [countKey]

/-- C10: for every listing call — the contacts listing and the deals listing
— whose filter record has a non-empty Token field (tagged query:"token" in
both filter structs), the URL handed to the transport contains the token
parameter twice: once from the encoded filter (inside the sorted pair list)
and once appended unconditionally by the request helper even though the
endpoint's query string already has one; parsing each URL's query component
yields the filter's pairs plus a second ("token", client token) pair, for a
count of exactly 2. -/
theorem claim10_token_twice (c : Client)
    (rC : ListContactsFilterRequest) (rD : ListDealsFilterRequest)
    (htokC : rC.Token ≠ []) (htokD : rD.Token ≠ [])
    (hwfC : wfFields rC.toFields = true) (hwfD : wfFields rD.toFields = true)
    (hbase : (63 : Nat) ∉ c.baseUrl)
    (htkn : c.token.all isUnreserved = true) :
    (parseQuery (queryPart (ListContactsFilterURL c rC)) =
        some (sortPairs (emitPairs rC.toFields) ++ [(strBytes "token", c.token)]) ∧
      countKey (strBytes "token")
        (sortPairs (emitPairs rC.toFields) ++ [(strBytes "token", c.token)]) = 2) ∧
    (parseQuery (queryPart (ListDealsFilterURL c rD)) =
        some (sortPairs (emitPairs rD.toFields) ++ [(strBytes "token", c.token)]) ∧
      countKey (strBytes "token")
        (sortPairs (emitPairs rD.toFields) ++ [(strBytes "token", c.token)]) = 2) := by
  constructor
  · have hcC := countKey_token_contacts rC htokC
    have hneC : encodeValues (emitPairs rC.toFields) ≠ [] :=
      encodeValues_ne_nil _ (ne_nil_of_countKey_one _ _ hcC)
    have hurlC : ListContactsFilterURL c rC =
        requestURL c (listContactsEndpoint ++ 63 :: encodeValues (emitPairs rC.toFields)) := by
      unfold ListContactsFilterURL
      rw [listContactsFullPath_eq rC hneC]
    rw [hurlC]
    exact token_twice_generic c rC.toFields listContactsEndpoint hcC hwfC hbase
      (by decide) htkn
  · have hcD := countKey_token_deals rD htokD
    have hneD : encodeValues (emitPairs rD.toFields) ≠ [] :=
      encodeValues_ne_nil _ (ne_nil_of_countKey_one _ _ hcD)
    have hurlD : ListDealsFilterURL c rD =
        requestURL c (listDealsEndpoint ++ 63 :: encodeValues (emitPairs rD.toFields)) := by
      unfold ListDealsFilterURL
      rw [listDealsFullPath_eq rD hneD]
    rw [hurlD]
    exact token_twice_generic c rD.toFields listDealsEndpoint hcD hwfD hbase
      (by decide) htkn

/-- C10 witness: with base URL "base", client token "tk" and filters whose
Token fields are "T", both the contacts listing URL and the deals listing
URL parse to the filter pair plus the appended client token — the token
parameter appears twice in each. -/
theorem claim10_witness :
    (parseQuery (queryPart (ListContactsFilterURL ⟨strBytes "base", strBytes "tk"⟩
        ⟨strBytes "T", [], [], [], [], [], [], [], []⟩)) =
      some (sortPairs (emitPairs
        (ListContactsFilterRequest.toFields
          ⟨strBytes "T", [], [], [], [], [], [], [], []⟩)) ++
        [(strBytes "token", strBytes "tk")]) ∧
      countKey (strBytes "token")
        (sortPairs (emitPairs
          (ListContactsFilterRequest.toFields
            ⟨strBytes "T", [], [], [], [], [], [], [], []⟩)) ++
          [(strBytes "token", strBytes "tk")]) = 2) ∧
    (parseQuery (queryPart (ListDealsFilterURL ⟨strBytes "base", strBytes "tk"⟩
        ⟨strBytes "T", [], [], [], [], [], [], [], [], [], [], [],
          [], [], [], [], [], [], [], [], [], [], []⟩)) =
      some (sortPairs (emitPairs
        (ListDealsFilterRequest.toFields
          ⟨strBytes "T", [], [], [], [], [], [], [], [], [], [], [],
            [], [], [], [], [], [], [], [], [], [], []⟩)) ++
        [(strBytes "token", strBytes "tk")]) ∧
      countKey (strBytes "token")
        (sortPairs (emitPairs
          (ListDealsFilterRequest.toFields
            ⟨strBytes "T", [], [], [], [], [], [], [], [], [], [], [],
              [], [], [], [], [], [], [], [], [], [], []⟩)) ++
          [(strBytes "token", strBytes "tk")]) = 2) :=
  claim10_token_twice ⟨strBytes "base", strBytes "tk"⟩
    ⟨strBytes "T", [], [], [], [], [], [], [], []⟩
    ⟨strBytes "T", [], [], [], [], [], [], [], [], [], [], [],
      [], [], [], [], [], [], [], [], [], [], []⟩
    (by decide) (by decide) (by decide) (by decide) (by decide) (by decide)
